import Mathlib

/-!
Verification of the nested-reply vote engine of the Online_discussion_board
backend (`forum-backend/routes/votes.js`).

The embedding translates the two Express route handlers
(`POST /thread/:threadId` and `POST /thread/:threadId/reply/:replyId`)
into pure Lean functions over an explicit `World` state holding the
thread store and the per-user reputation records.  Mongoose documents
become plain structures; ObjectId values become `Nat`; the persisted
database becomes the `World`; `thread.save()` / `User.findByIdAndUpdate`
become functional updates of the `World`.
-/

namespace Forum

/-- The two vote types accepted by the validator `isIn(['upvote','downvote'])`. -/
inductive VoteType where
  | upvote
  | downvote
deriving DecidableEq, Repr

/-- A vote entry `{user, type}` as stored in a votable node's `votes` array. -/
structure Vote where
  user : Nat
  type : VoteType
deriving DecidableEq, Repr

/-- The vote-mutation logic of the thread handler (votes.js lines 28–48),
identical to the inline logic of `findAndVoteReply` (lines 92–105):
scan `votes` for the first entry of `u` (JS `findIndex`); if found with the
same type, remove it (`splice`); if found with a different type, overwrite
its `type` field; if absent, append `{user: u, type: t}` (`push`). -/
def applyVote : List Vote → Nat → VoteType → List Vote
  | [], u, t => [⟨u, t⟩]
  | v :: vs, u, t =>
    if v.user = u then
      (if v.type = t then vs else ⟨v.user, t⟩ :: vs)
    else
      v :: applyVote vs u t

/-- JS `thread.votes.findIndex(vote => vote.user === userId) !== -1`. -/
def hasVote (votes : List Vote) (u : Nat) : Bool :=
  votes.any (fun v => v.user = u)

/-- The user's current vote in a vote set:
`votes.find(v => v.user === u)?.type` (undefined mapped to `none`). -/
def lookupVote (votes : List Vote) (u : Nat) : Option VoteType :=
  (votes.find? (fun v => v.user = u)).map (·.type)

/-- The `voteCount` computation of votes.js lines 52–53:
upvote count minus downvote count (the net score). -/
def voteCount (votes : List Vote) : Int :=
  ((votes.filter (fun v => v.type = VoteType.upvote)).length : Int) -
  ((votes.filter (fun v => v.type = VoteType.downvote)).length : Int)

/-- The `userVote` field of the thread route's JSON response (votes.js line 62):
`existingVoteIndex !== -1 ? thread.votes.find(v => v.user === u)?.type : null`,
evaluated on the post-mutation vote set. -/
def userVoteResp (existedBefore : Bool) (newVotes : List Vote) (u : Nat) :
    Option VoteType :=
  if existedBefore then lookupVote newVotes u else none

/-- A reply document: `{_id, author, content, votes, replies}` with nested
children under the `replies` field (cf. `replies.replies` in threads.js). -/
inductive Reply where
  | mk (id : Nat) (author : Nat) (content : String) (votes : List Vote)
      (replies : List Reply)

def Reply.id : Reply → Nat
  | .mk i _ _ _ _ => i

def Reply.author : Reply → Nat
  | .mk _ a _ _ _ => a

def Reply.content : Reply → String
  | .mk _ _ c _ _ => c

def Reply.votes : Reply → List Vote
  | .mk _ _ _ v _ => v

def Reply.replies : Reply → List Reply
  | .mk _ _ _ _ rs => rs

/-- Replace a reply's vote set (in-place mutation of the located document). -/
def Reply.setVotes : Reply → List Vote → Reply
  | .mk i a c _ rs, v => .mk i a c v rs

/-- Replace a reply's children (the recursion rebuilding the tree). -/
def Reply.setReplies : Reply → List Reply → Reply
  | .mk i a c v _, rs => .mk i a c v rs

/-- `findAndVoteReply` (votes.js lines 89–116): depth-first pre-order scan.
For each reply in order: if its id matches, apply the vote mutation to that
reply and succeed; otherwise search its children (the JS guards the
recursion with `reply.replies.length > 0`), and only if that fails move on
to the next sibling.  `none` models the JS `return false` (reply absent). -/
def findAndVoteReply : List Reply → Nat → Nat → VoteType → Option (List Reply)
  | [], _, _, _ => none
  | Reply.mk i a c v rs :: rest, replyId, userId, voteType =>
    if i = replyId then
      some (Reply.mk i a c (applyVote v userId voteType) rs :: rest)
    else
      match (if 0 < rs.length then
               findAndVoteReply rs replyId userId voteType
             else none) with
      | some newChildren => some (Reply.mk i a c v newChildren :: rest)
      | none =>
        match findAndVoteReply rest replyId userId voteType with
        | some newRest => some (Reply.mk i a c v rs :: newRest)
        | none => none

/-- A thread document: the fields of the Threads model the vote routes use. -/
structure Thread where
  id : Nat
  author : Nat
  title : String
  content : String
  votes : List Vote
  replies : List Reply

/-- The persistent state the two routes read and write: the thread store
(`Thread.findById` / `thread.save()`) and each user's stored reputation
(`User.findByIdAndUpdate(author, {$set: {reputation}})`). -/
structure World where
  threads : Nat → Option Thread
  reputation : Nat → Int

/-- The outcomes of the express-validator check and the two 404 returns. -/
inductive VoteError where
  | badRequest
  | threadNotFound
  | replyNotFound
deriving DecidableEq, Repr

/-- `body('type').isIn(['upvote','downvote'])`: any other string is rejected
with a 400 validation error before the handler body runs. -/
def parseVoteType (s : String) : Option VoteType :=
  if s = "upvote" then some VoteType.upvote
  else if s = "downvote" then some VoteType.downvote
  else none

/-- The JSON body of a successful thread-vote response (votes.js lines 59–63). -/
structure ThreadVoteResp where
  message : String
  voteCount : Int
  userVote : Option VoteType
deriving DecidableEq, Repr

/-- The JSON body of a successful reply-vote response (votes.js line 123). -/
structure ReplyVoteResp where
  message : String
deriving DecidableEq, Repr

/-- `POST /thread/:threadId` (votes.js lines 9–66).  Returns the world after
the handler (unchanged on every error return, since `thread.save()` and the
reputation update are only reached on success) together with the response. -/
def threadVoteRoute (w : World) (threadId reqUser : Nat) (typeStr : String) :
    World × Except VoteError ThreadVoteResp :=
  match parseVoteType typeStr with
  | none => (w, .error .badRequest)
  | some t =>
    match w.threads threadId with
    | none => (w, .error .threadNotFound)
    | some thread =>
      let existed := hasVote thread.votes reqUser
      let newVotes := applyVote thread.votes reqUser t
      let thread' := { thread with votes := newVotes }
      let vc := voteCount newVotes
      let w' : World :=
        { threads := fun i => if i = threadId then some thread' else w.threads i,
          reputation := fun uid =>
            if uid = thread.author then max 0 (vc * 10) else w.reputation uid }
      (w', .ok { message := "Vote recorded successfully",
                 voteCount := vc,
                 userVote := userVoteResp existed newVotes reqUser })

/-- `POST /thread/:threadId/reply/:replyId` (votes.js lines 70–127). -/
def replyVoteRoute (w : World) (threadId replyId reqUser : Nat)
    (typeStr : String) : World × Except VoteError ReplyVoteResp :=
  match parseVoteType typeStr with
  | none => (w, .error .badRequest)
  | some t =>
    match w.threads threadId with
    | none => (w, .error .threadNotFound)
    | some thread =>
      match findAndVoteReply thread.replies replyId reqUser t with
      | none => (w, .error .replyNotFound)
      | some newReplies =>
        let thread' := { thread with replies := newReplies }
        let w' : World :=
          { threads := fun i => if i = threadId then some thread' else w.threads i,
            reputation := w.reputation }
        (w', .ok { message := "Vote recorded successfully" })

/-! ### Pre-order view of the reply tree

`findAndVoteReply` is characterised through the pre-order flattening of the
tree: `applyFirstView` is the specification-level operation "update the vote
set of the first pre-order node carrying the requested id", acting on the
flat list of `(id, votes)` node views. -/

/-- Depth-first pre-order listing of a reply forest: each node before its
children, children before later siblings. -/
def flatten : List Reply → List Reply
  | [] => []
  | Reply.mk i a c v rs :: rest =>
    Reply.mk i a c v rs :: (flatten rs ++ flatten rest)

/-- The per-node data a vote mutation can touch: the id and the vote set. -/
def nodeView (r : Reply) : Nat × List Vote :=
  (r.id, r.votes)

/-- The pre-order sequence of `(id, votes)` views of a reply forest. -/
def viewList (rs : List Reply) : List (Nat × List Vote) :=
  (flatten rs).map nodeView

/-- Specification-level operation, written from the spec's words for the
refinement claim about the search order: apply the vote to the first element
of a flat node-view list whose id matches, leaving every other element
unchanged; `none` when no element matches.  This is
"the vote is applied to the first pre-order match". -/
def applyFirstView : List (Nat × List Vote) → Nat → Nat → VoteType →
    Option (List (Nat × List Vote))
  | [], _, _, _ => none
  | (i, vs) :: rest, replyId, userId, voteType =>
    if i = replyId then
      some ((i, applyVote vs userId voteType) :: rest)
    else
      (applyFirstView rest replyId userId voteType).map ((i, vs) :: ·)

/-- A node view with the target id blanked out: two forests agree on
`maskView` exactly when all nodes other than those carrying the target id
are identical in id and votes. -/
def maskView (replyId : Nat) (p : Nat × List Vote) : Option (Nat × List Vote) :=
  if p.1 = replyId then none else some p

/-- The at-most-one-vote-per-user invariant on a single vote set. -/
def atMostOneVotePerUser (votes : List Vote) : Prop :=
  votes.Pairwise (fun a b => a.user ≠ b.user)

/-- The invariant holding at every node of a reply forest. -/
def forestInv (rs : List Reply) : Prop :=
  ∀ r ∈ flatten rs, atMostOneVotePerUser r.votes

/-! ### Basic lemmas about the vote-set mutation -/

@[simp] theorem Reply.id_mk (i a : Nat) (c : String) (v : List Vote)
    (rs : List Reply) : (Reply.mk i a c v rs).id = i := rfl

@[simp] theorem Reply.author_mk (i a : Nat) (c : String) (v : List Vote)
    (rs : List Reply) : (Reply.mk i a c v rs).author = a := rfl

@[simp] theorem Reply.votes_mk (i a : Nat) (c : String) (v : List Vote)
    (rs : List Reply) : (Reply.mk i a c v rs).votes = v := rfl

@[simp] theorem Reply.replies_mk (i a : Nat) (c : String) (v : List Vote)
    (rs : List Reply) : (Reply.mk i a c v rs).replies = rs := rfl

/-- When the user has no entry, the scan falls through and appends. -/
theorem applyVote_absent (votes : List Vote) (u : Nat) (t : VoteType)
    (h : ∀ v ∈ votes, v.user ≠ u) :
    applyVote votes u t = votes ++ [⟨u, t⟩] := by
  induction votes with
  | nil => rfl
  | cons v vs ih =>
    have hv : v.user ≠ u := h v (List.mem_cons_self v vs)
    simp only [applyVote, if_neg hv, List.cons_append, List.cons.injEq, true_and]
    exact ih fun x hx => h x (List.mem_cons_of_mem v hx)

/-- Reaching the first entry of `u` with the same type removes it. -/
theorem applyVote_remove (p s : List Vote) (v : Vote) (u : Nat) (t : VoteType)
    (hp : ∀ x ∈ p, x.user ≠ u) (hv : v.user = u) (ht : v.type = t) :
    applyVote (p ++ v :: s) u t = p ++ s := by
  induction p with
  | nil => simp [applyVote, hv, ht]
  | cons x xs ih =>
    have hx : x.user ≠ u := hp x (List.mem_cons_self x xs)
    simp only [List.cons_append, applyVote, if_neg hx, List.cons.injEq, true_and]
    exact ih fun y hy => hp y (List.mem_cons_of_mem x hy)

/-- Reaching the first entry of `u` with a different type overwrites it. -/
theorem applyVote_switch (p s : List Vote) (v : Vote) (u : Nat) (t : VoteType)
    (hp : ∀ x ∈ p, x.user ≠ u) (hv : v.user = u) (ht : v.type ≠ t) :
    applyVote (p ++ v :: s) u t = p ++ ⟨u, t⟩ :: s := by
  induction p with
  | nil => simp [applyVote, hv, ht]
  | cons x xs ih =>
    have hx : x.user ≠ u := hp x (List.mem_cons_self x xs)
    simp only [List.cons_append, applyVote, if_neg hx, List.cons.injEq, true_and]
    exact ih fun y hy => hp y (List.mem_cons_of_mem x hy)

/-- Every entry of the mutated set comes from the old set or belongs to `u`. -/
theorem applyVote_mem (votes : List Vote) (u : Nat) (t : VoteType) :
    ∀ x ∈ applyVote votes u t, x ∈ votes ∨ x.user = u := by
  induction votes with
  | nil =>
    intro x hx
    simp only [applyVote, List.mem_singleton] at hx
    exact Or.inr (by simp [hx])
  | cons v vs ih =>
    intro x hx
    by_cases hv : v.user = u
    · by_cases ht : v.type = t
      · simp only [applyVote, if_pos hv, if_pos ht] at hx
        exact Or.inl (List.mem_cons_of_mem v hx)
      · simp only [applyVote, if_pos hv, if_neg ht, List.mem_cons] at hx
        rcases hx with hx | hx
        · exact Or.inr (by simp [hx, hv])
        · exact Or.inl (List.mem_cons_of_mem v hx)
    · simp only [applyVote, if_neg hv, List.mem_cons] at hx
      rcases hx with hx | hx
      · exact Or.inl (by simp [hx])
      · rcases ih x hx with h | h
        · exact Or.inl (List.mem_cons_of_mem v h)
        · exact Or.inr h

/-- The mutation preserves the at-most-one-entry-per-user shape. -/
theorem applyVote_pairwise (votes : List Vote) (u : Nat) (t : VoteType)
    (h : atMostOneVotePerUser votes) :
    atMostOneVotePerUser (applyVote votes u t) := by
  induction votes with
  | nil => simp [applyVote, atMostOneVotePerUser]
  | cons v vs ih =>
    rw [atMostOneVotePerUser, List.pairwise_cons] at h
    obtain ⟨hhead, htail⟩ := h
    by_cases hv : v.user = u
    · by_cases ht : v.type = t
      · simpa [applyVote, hv, ht, atMostOneVotePerUser] using htail
      · rw [applyVote]
        simp only [if_pos hv, if_neg ht]
        rw [atMostOneVotePerUser, List.pairwise_cons]
        exact ⟨fun x hx => hhead x hx, htail⟩
    · rw [applyVote]
      simp only [if_neg hv]
      rw [atMostOneVotePerUser, List.pairwise_cons]
      refine ⟨fun x hx => ?_, ih htail⟩
      rcases applyVote_mem vs u t x hx with hmem | huser
      · exact hhead x hmem
      · rw [huser]; exact hv

/-- Under the invariant, every entry of `u` sitting anywhere in the list is
the first one the scan meets: no earlier entry can carry the same user. -/
theorem inv_before_entry (p s : List Vote) (v : Vote) (u : Nat)
    (hinv : atMostOneVotePerUser (p ++ v :: s)) (hv : v.user = u) :
    ∀ x ∈ p, x.user ≠ u := by
  rw [atMostOneVotePerUser, List.pairwise_append] at hinv
  intro x hx
  have := hinv.2.2 x hx v (List.mem_cons_self v s)
  rw [hv] at this
  exact this

/-- C1: `applyVote` follows the three-case toggle/switch/insert semantics:
on a vote set obeying the one-entry-per-user invariant, a user with no
entry gets `{user, type}` appended; an entry of the same type is removed;
an entry of a different type has its type field overwritten in place.
The function is total: no other case exists and no error is possible. -/
theorem applyVote_three_cases (votes : List Vote) (u : Nat) (t : VoteType)
    (hinv : atMostOneVotePerUser votes) :
    ((∀ v ∈ votes, v.user ≠ u) → applyVote votes u t = votes ++ [⟨u, t⟩]) ∧
    (∀ p v s, votes = p ++ v :: s → v.user = u → v.type = t →
        applyVote votes u t = p ++ s) ∧
    (∀ p v s, votes = p ++ v :: s → v.user = u → v.type ≠ t →
        applyVote votes u t = p ++ ⟨u, t⟩ :: s) := by
  refine ⟨fun h => applyVote_absent votes u t h, ?_, ?_⟩
  · intro p v s hsplit hv ht
    subst hsplit
    exact applyVote_remove p s v u t (inv_before_entry p s v u hinv hv) hv ht
  · intro p v s hsplit hv ht
    subst hsplit
    exact applyVote_switch p s v u t (inv_before_entry p s v u hinv hv) hv ht

/-- Witness for C1: on the set `[{user 5, upvote}]` the same user casting
`upvote` again toggles the vote off. -/
theorem applyVote_three_cases_witness :
    atMostOneVotePerUser [⟨5, VoteType.upvote⟩] ∧
    applyVote [⟨5, VoteType.upvote⟩] 5 VoteType.upvote = [] := by
  constructor
  · simp [atMostOneVotePerUser]
  · exact (applyVote_three_cases [⟨5, VoteType.upvote⟩] 5 VoteType.upvote
      (by simp [atMostOneVotePerUser])).2.1 [] ⟨5, VoteType.upvote⟩ [] rfl rfl rfl

/-- C8: toggle round-trip.  Starting from a set with no entry for `u`,
casting a vote and casting the same vote again restores the original set,
leaves `u` with no vote, and returns the net score to its prior value. -/
theorem applyVote_toggle_roundtrip (votes : List Vote) (u : Nat) (t : VoteType)
    (h : ∀ v ∈ votes, v.user ≠ u) :
    applyVote (applyVote votes u t) u t = votes ∧
    lookupVote (applyVote (applyVote votes u t) u t) u = none ∧
    voteCount (applyVote (applyVote votes u t) u t) = voteCount votes := by
  have h1 : applyVote votes u t = votes ++ [⟨u, t⟩] := applyVote_absent votes u t h
  have h2 : applyVote (applyVote votes u t) u t = votes := by
    rw [h1]
    simpa using applyVote_remove votes [] ⟨u, t⟩ u t h rfl rfl
  refine ⟨h2, ?_, by rw [h2]⟩
  rw [h2, lookupVote, List.find?_eq_none.2 ?_]
  · rfl
  · intro v hv
    simpa using h v hv

/-- Witness for C8: the round trip on `[{user 1, downvote}]` for user 2. -/
theorem applyVote_toggle_roundtrip_witness :
    applyVote (applyVote [⟨1, VoteType.downvote⟩] 2 VoteType.upvote) 2
        VoteType.upvote = [⟨1, VoteType.downvote⟩] ∧
    lookupVote (applyVote (applyVote [⟨1, VoteType.downvote⟩] 2
        VoteType.upvote) 2 VoteType.upvote) 2 = none ∧
    voteCount (applyVote (applyVote [⟨1, VoteType.downvote⟩] 2
        VoteType.upvote) 2 VoteType.upvote) = voteCount [⟨1, VoteType.downvote⟩] :=
  applyVote_toggle_roundtrip [⟨1, VoteType.downvote⟩] 2 VoteType.upvote
    (by intro v hv; simp at hv; simp [hv])

/-! ### The depth-first search through the pre-order view -/

@[simp] theorem flatten_nil : flatten [] = [] := by simp [flatten]

theorem flatten_cons (i a : Nat) (c : String) (v : List Vote)
    (rs rest : List Reply) :
    flatten (Reply.mk i a c v rs :: rest) =
      Reply.mk i a c v rs :: (flatten rs ++ flatten rest) := by
  simp [flatten]

@[simp] theorem viewList_nil : viewList [] = [] := by simp [viewList]

theorem viewList_cons (i a : Nat) (c : String) (v : List Vote)
    (rs rest : List Reply) :
    viewList (Reply.mk i a c v rs :: rest) =
      (i, v) :: (viewList rs ++ viewList rest) := by
  simp [viewList, flatten_cons, nodeView]

/-- The JS guard `reply.replies.length > 0` does not change the outcome:
searching an empty child list also fails. -/
theorem findAndVoteReply_guard (rs : List Reply) (rid u : Nat) (t : VoteType) :
    (if 0 < rs.length then findAndVoteReply rs rid u t else none) =
      findAndVoteReply rs rid u t := by
  cases rs with
  | nil => simp [findAndVoteReply]
  | cons r rest => simp

/-- Scanning a concatenation: the left part is searched first, and the
right part only when the left one has no match. -/
theorem applyFirstView_append (xs ys : List (Nat × List Vote)) (rid u : Nat)
    (t : VoteType) :
    applyFirstView (xs ++ ys) rid u t =
      match applyFirstView xs rid u t with
      | some xs' => some (xs' ++ ys)
      | none => (applyFirstView ys rid u t).map (xs ++ ·) := by
  induction xs with
  | nil => simp [applyFirstView, Option.map_map]
  | cons p ps ih =>
    obtain ⟨i, vs⟩ := p
    by_cases hid : i = rid
    · simp [applyFirstView, hid]
    · rw [List.cons_append]
      cases hps : applyFirstView ps rid u t with
      | some ps' =>
        have h2 : applyFirstView (ps ++ ys) rid u t = some (ps' ++ ys) := by
          rw [ih, hps]
        simp [applyFirstView, hid, h2, hps]
      | none =>
        have h2 : applyFirstView (ps ++ ys) rid u t =
            (applyFirstView ys rid u t).map (ps ++ ·) := by
          rw [ih, hps]
        cases hys : applyFirstView ys rid u t with
        | some ys' => simp [applyFirstView, hid, h2, hps, hys]
        | none => simp [applyFirstView, hid, h2, hps, hys]

/-- The flat search fails exactly when no element carries the id. -/
theorem applyFirstView_eq_none (xs : List (Nat × List Vote)) (rid u : Nat)
    (t : VoteType) :
    applyFirstView xs rid u t = none ↔ ∀ p ∈ xs, p.1 ≠ rid := by
  induction xs with
  | nil => simp [applyFirstView]
  | cons p ps ih =>
    obtain ⟨i, vs⟩ := p
    by_cases hid : i = rid
    · simp [applyFirstView, hid]
    · simp [applyFirstView, hid, ih]

/-- Blanking out the target id, the flat search changes nothing: every
element not carrying the searched id survives untouched. -/
theorem applyFirstView_mask (xs xs' : List (Nat × List Vote)) (rid u : Nat)
    (t : VoteType) (h : applyFirstView xs rid u t = some xs') :
    xs'.map (maskView rid) = xs.map (maskView rid) := by
  induction xs generalizing xs' with
  | nil => simp [applyFirstView] at h
  | cons p ps ih =>
    obtain ⟨i, vs⟩ := p
    by_cases hid : i = rid
    · simp only [applyFirstView, if_pos hid, Option.some.injEq] at h
      subst h
      simp [maskView, hid]
    · simp only [applyFirstView, if_neg hid, Option.map_eq_some'] at h
      obtain ⟨ps', hps', rfl⟩ := h
      simp [ih ps' hps']

/-- The tree search agrees with the flat first-match search on the
pre-order view: this is the central refinement equation. -/
theorem findAndVoteReply_view :
    ∀ (rs : List Reply) (rid u : Nat) (t : VoteType),
    (findAndVoteReply rs rid u t).map viewList =
      applyFirstView (viewList rs) rid u t
  | [], rid, u, t => by
    simp [findAndVoteReply, applyFirstView]
  | Reply.mk i a c v rs :: rest, rid, u, t => by
    have ihc := findAndVoteReply_view rs rid u t
    have ihr := findAndVoteReply_view rest rid u t
    rw [viewList_cons]
    by_cases hid : i = rid
    · rw [findAndVoteReply]
      simp [applyFirstView, hid, viewList_cons]
    · rw [findAndVoteReply]
      simp only [if_neg hid, findAndVoteReply_guard, applyFirstView,
        applyFirstView_append]
      cases hc : findAndVoteReply rs rid u t with
      | some newChildren =>
        rw [hc] at ihc
        simp only [Option.map_some'] at ihc
        rw [← ihc]
        simp [viewList_cons]
      | none =>
        rw [hc] at ihc
        simp only [Option.map_none'] at ihc
        rw [← ihc]
        cases hr : findAndVoteReply rest rid u t with
        | some newRest =>
          rw [hr] at ihr
          simp only [Option.map_some'] at ihr
          rw [← ihr]
          simp [viewList_cons]
        | none =>
          rw [hr] at ihr
          simp only [Option.map_none'] at ihr
          rw [← ihr]
          simp

/-- The tree search fails exactly when no node of the whole forest carries
the requested id. -/
theorem findAndVoteReply_eq_none (rs : List Reply) (rid u : Nat)
    (t : VoteType) :
    findAndVoteReply rs rid u t = none ↔ ∀ r ∈ flatten rs, r.id ≠ rid := by
  have hview := findAndVoteReply_view rs rid u t
  constructor
  · intro h
    rw [h] at hview
    simp only [Option.map_none'] at hview
    have := (applyFirstView_eq_none (viewList rs) rid u t).1 hview.symm
    intro r hr
    have hmem : nodeView r ∈ viewList rs := List.mem_map_of_mem nodeView hr
    have := this (nodeView r) hmem
    simpa [nodeView] using this
  · intro h
    cases hc : findAndVoteReply rs rid u t with
    | none => rfl
    | some rs' =>
      rw [hc] at hview
      simp only [Option.map_some'] at hview
      have : applyFirstView (viewList rs) rid u t = none := by
        apply (applyFirstView_eq_none (viewList rs) rid u t).2
        intro p hp
        obtain ⟨r, hr, rfl⟩ := List.mem_map.1 hp
        simpa [nodeView] using h r hr
      rw [this] at hview
      exact absurd hview (by simp)

/-- C6: locating a reply is a depth-first pre-order search.  On the
pre-order view of the tree, the operation coincides with applying the vote
to the first element carrying the requested id (children visited before
later siblings, each node's id compared before its children), and it yields
the not-found outcome exactly when no node of the whole tree carries the
id. -/
theorem findAndVoteReply_preorder_search (rs : List Reply) (rid u : Nat)
    (t : VoteType) :
    ((findAndVoteReply rs rid u t).map viewList =
        applyFirstView (viewList rs) rid u t) ∧
    (findAndVoteReply rs rid u t = none ↔ ∀ r ∈ flatten rs, r.id ≠ rid) :=
  ⟨findAndVoteReply_view rs rid u t, findAndVoteReply_eq_none rs rid u t⟩

/-! ### Invariant preservation -/

theorem forestInv_cons (i a : Nat) (c : String) (v : List Vote)
    (rs rest : List Reply) :
    forestInv (Reply.mk i a c v rs :: rest) ↔
      atMostOneVotePerUser v ∧ forestInv rs ∧ forestInv rest := by
  simp only [forestInv, flatten_cons, List.forall_mem_cons, List.mem_append,
    Reply.votes_mk, or_imp, forall_and]

/-- A successful tree vote keeps the invariant at every node. -/
theorem findAndVoteReply_forestInv :
    ∀ (rs : List Reply) (rid u : Nat) (t : VoteType) (rs' : List Reply),
    findAndVoteReply rs rid u t = some rs' → forestInv rs → forestInv rs'
  | [], rid, u, t, rs' => by
    intro h
    simp [findAndVoteReply] at h
  | Reply.mk i a c v rs :: rest, rid, u, t, rs' => by
    intro h hinv
    rw [forestInv_cons] at hinv
    obtain ⟨hv, hcs, hrest⟩ := hinv
    rw [findAndVoteReply] at h
    by_cases hid : i = rid
    · rw [if_pos hid] at h
      obtain rfl := Option.some.inj h
      exact (forestInv_cons _ _ _ _ _ _).2
        ⟨applyVote_pairwise v u t hv, hcs, hrest⟩
    · rw [if_neg hid, findAndVoteReply_guard] at h
      cases hc : findAndVoteReply rs rid u t with
      | some newChildren =>
        rw [hc] at h
        obtain rfl := Option.some.inj h
        exact (forestInv_cons _ _ _ _ _ _).2
          ⟨hv, findAndVoteReply_forestInv rs rid u t newChildren hc hcs, hrest⟩
      | none =>
        rw [hc] at h
        cases hr : findAndVoteReply rest rid u t with
        | some newRest =>
          rw [hr] at h
          obtain rfl := Option.some.inj h
          exact (forestInv_cons _ _ _ _ _ _).2
            ⟨hv, hcs, findAndVoteReply_forestInv rest rid u t newRest hr hrest⟩
        | none =>
          rw [hr] at h
          exact absurd h (by simp)

/-- C4: every vote operation preserves the at-most-one-vote-per-user
invariant — both the direct mutation of a single node's vote set and a
reply-tree vote at any located node. -/
theorem vote_ops_preserve_invariant (votes : List Vote) (u rid : Nat)
    (t : VoteType) (rs : List Reply)
    (h1 : atMostOneVotePerUser votes) (h2 : forestInv rs) :
    atMostOneVotePerUser (applyVote votes u t) ∧
    ∀ rs', findAndVoteReply rs rid u t = some rs' → forestInv rs' :=
  ⟨applyVote_pairwise votes u t h1,
   fun rs' h => findAndVoteReply_forestInv rs rid u t rs' h h2⟩

/-! ### Route-level inversion lemmas and concrete states -/

/-- The thread handler's success path, as one equation: with a valid type
and an existing thread, the resulting world stores the mutated thread and
the recomputed author reputation, and the response carries the new net
score and the line-62 `userVote` value. -/
theorem threadVoteRoute_eq (w : World) (tid u : Nat) (ts : String)
    (t : VoteType) (thread : Thread)
    (hp : parseVoteType ts = some t) (hth : w.threads tid = some thread) :
    threadVoteRoute w tid u ts =
      ({ threads := fun i => if i = tid then
           some { thread with votes := applyVote thread.votes u t }
         else w.threads i,
         reputation := fun uid => if uid = thread.author then
           max 0 (voteCount (applyVote thread.votes u t) * 10)
         else w.reputation uid },
       Except.ok { message := "Vote recorded successfully",
                   voteCount := voteCount (applyVote thread.votes u t),
                   userVote := userVoteResp (hasVote thread.votes u)
                     (applyVote thread.votes u t) u }) := by
  unfold threadVoteRoute
  rw [hp, hth]

/-- A successful thread vote presupposes a valid type and a stored thread. -/
theorem threadVoteRoute_ok (w : World) (tid u : Nat) (ts : String)
    (resp : ThreadVoteResp)
    (h : (threadVoteRoute w tid u ts).2 = Except.ok resp) :
    ∃ t thread, parseVoteType ts = some t ∧ w.threads tid = some thread := by
  cases hp : parseVoteType ts with
  | none =>
    exfalso
    unfold threadVoteRoute at h
    rw [hp] at h
    simp at h
  | some t =>
    cases hth : w.threads tid with
    | none =>
      exfalso
      unfold threadVoteRoute at h
      rw [hp, hth] at h
      simp at h
    | some thread => exact ⟨t, thread, rfl, rfl⟩

/-- The reply handler's success path, as one equation: only the reply
forest of the target thread is replaced; every reputation record and the
thread's own vote set stay untouched. -/
theorem replyVoteRoute_eq (w : World) (tid rid u : Nat) (ts : String)
    (t : VoteType) (thread : Thread) (newReplies : List Reply)
    (hp : parseVoteType ts = some t) (hth : w.threads tid = some thread)
    (hf : findAndVoteReply thread.replies rid u t = some newReplies) :
    replyVoteRoute w tid rid u ts =
      ({ threads := fun i => if i = tid then
           some { thread with replies := newReplies }
         else w.threads i,
         reputation := w.reputation },
       Except.ok { message := "Vote recorded successfully" }) := by
  unfold replyVoteRoute
  simp only [hp, hth, hf]

/-- A successful reply vote presupposes a valid type, a stored thread, and
a located reply. -/
theorem replyVoteRoute_ok (w : World) (tid rid u : Nat) (ts : String)
    (resp : ReplyVoteResp)
    (h : (replyVoteRoute w tid rid u ts).2 = Except.ok resp) :
    ∃ t thread newReplies, parseVoteType ts = some t ∧
      w.threads tid = some thread ∧
      findAndVoteReply thread.replies rid u t = some newReplies := by
  cases hp : parseVoteType ts with
  | none =>
    exfalso
    unfold replyVoteRoute at h
    rw [hp] at h
    simp at h
  | some t =>
    cases hth : w.threads tid with
    | none =>
      exfalso
      unfold replyVoteRoute at h
      rw [hp, hth] at h
      simp at h
    | some thread =>
      cases hf : findAndVoteReply thread.replies rid u t with
      | none =>
        exfalso
        unfold replyVoteRoute at h
        simp only [hp, hth, hf] at h
        simp at h
      | some newReplies => exact ⟨t, thread, newReplies, rfl, rfl, hf⟩

/-- A thread with no votes and no replies, authored by user 3. -/
def sampleThread : Thread :=
  { id := 1, author := 3, title := "T", content := "body",
    votes := [], replies := [] }

/-- A store holding only `sampleThread` under id 1. -/
def sampleWorld : World :=
  { threads := fun i => if i = 1 then some sampleThread else none,
    reputation := fun _ => 0 }

/-- A thread whose only reply (id 10, no votes yet) is a leaf. -/
def soloReplyThread : Thread :=
  { id := 1, author := 3, title := "T", content := "body", votes := [],
    replies := [Reply.mk 10 4 "a" [] []] }

/-- A store holding only `soloReplyThread` under id 1. -/
def soloReplyWorld : World :=
  { threads := fun i => if i = 1 then some soloReplyThread else none,
    reputation := fun _ => 0 }

/-- The nested forest A(10)[B(11), C(12)[D(13)]] under a thread with one
thread-level vote, authored by user 3 with stored reputation 10. -/
def nestedThread : Thread :=
  { id := 1, author := 3, title := "T", content := "body",
    votes := [⟨9, VoteType.upvote⟩],
    replies := [Reply.mk 10 4 "a" []
      [Reply.mk 11 4 "b" [] [], Reply.mk 12 5 "c" [] [Reply.mk 13 5 "d" [] []]]] }

/-- A store holding only `nestedThread` under id 1. -/
def nestedWorld : World :=
  { threads := fun i => if i = 1 then some nestedThread else none,
    reputation := fun u => if u = 3 then 10 else 0 }

/-- C2 (failing on the code): user 7, with no prior vote, casts `upvote` on
`sampleThread`.  The vote is inserted and the returned net score is 1, but
the response's `userVote` field is `null` rather than the desired type:
line 62 of votes.js returns the looked-up vote only when
`existingVoteIndex !== -1`, so a fresh vote always reports `null`. -/
theorem threadVote_fresh_userVote_is_null :
    (threadVoteRoute sampleWorld 1 7 "upvote").2 =
      Except.ok { message := "Vote recorded successfully",
                  voteCount := 1, userVote := none } ∧
    ((threadVoteRoute sampleWorld 1 7 "upvote").1.threads 1).map Thread.votes =
      some [⟨7, VoteType.upvote⟩] :=
  ⟨rfl, rfl⟩

/-- C3: every successful thread-level vote stores, for the thread author,
the reputation recomputed from the full post-mutation vote set as
`max(0, netScore × 10)`. -/
theorem threadVote_recomputes_reputation (w : World) (tid u : Nat)
    (ts : String) (resp : ThreadVoteResp)
    (h : (threadVoteRoute w tid u ts).2 = Except.ok resp) :
    ∃ thread', (threadVoteRoute w tid u ts).1.threads tid = some thread' ∧
      (threadVoteRoute w tid u ts).1.reputation thread'.author =
        max 0 (voteCount thread'.votes * 10) := by
  obtain ⟨t, thread, hp, hth⟩ := threadVoteRoute_ok w tid u ts resp h
  have heq := threadVoteRoute_eq w tid u ts t thread hp hth
  refine ⟨{ thread with votes := applyVote thread.votes u t }, ?_, ?_⟩
  · rw [heq]; simp
  · rw [heq]; simp

/-- Witness for C3: user 7 upvoting `sampleThread` recomputes author 3's
reputation (to `max 0 (1 * 10) = 10`). -/
theorem threadVote_recomputes_reputation_witness :
    ∃ thread', (threadVoteRoute sampleWorld 1 7 "upvote").1.threads 1 =
        some thread' ∧
      (threadVoteRoute sampleWorld 1 7 "upvote").1.reputation thread'.author =
        max 0 (voteCount thread'.votes * 10) :=
  threadVote_recomputes_reputation sampleWorld 1 7 "upvote"
    { message := "Vote recorded successfully", voteCount := 1, userVote := none }
    rfl

/-- C5: a reply-level vote mutates only the target reply's own vote set.
The reputation store is untouched (no recomputation is triggered), other
threads are untouched, and on the target thread the thread's own vote set,
author and id are unchanged while every reply node not carrying the target
id keeps its exact `(id, votes)` view. -/
theorem replyVote_frame (w : World) (tid rid u : Nat) (ts : String)
    (resp : ReplyVoteResp)
    (h : (replyVoteRoute w tid rid u ts).2 = Except.ok resp) :
    (replyVoteRoute w tid rid u ts).1.reputation = w.reputation ∧
    (∀ i, i ≠ tid → (replyVoteRoute w tid rid u ts).1.threads i = w.threads i) ∧
    ∃ thread thread', w.threads tid = some thread ∧
      (replyVoteRoute w tid rid u ts).1.threads tid = some thread' ∧
      thread'.votes = thread.votes ∧ thread'.author = thread.author ∧
      thread'.id = thread.id ∧
      (viewList thread'.replies).map (maskView rid) =
        (viewList thread.replies).map (maskView rid) := by
  obtain ⟨t, thread, newReplies, hp, hth, hf⟩ :=
    replyVoteRoute_ok w tid rid u ts resp h
  have heq := replyVoteRoute_eq w tid rid u ts t thread newReplies hp hth hf
  have hview := findAndVoteReply_view thread.replies rid u t
  rw [hf] at hview
  simp only [Option.map_some'] at hview
  have hmask := applyFirstView_mask (viewList thread.replies)
    (viewList newReplies) rid u t hview.symm
  exact ⟨by rw [heq], fun i hi => by rw [heq]; simp [hi], thread,
    { thread with replies := newReplies }, hth, by rw [heq]; simp,
    rfl, rfl, rfl, hmask⟩

/-- Witness for C5: user 7 upvotes the deepest reply (id 13) of the nested
forest; reputations, other threads, and all other nodes are untouched. -/
theorem replyVote_frame_witness :
    (replyVoteRoute nestedWorld 1 13 7 "upvote").1.reputation =
      nestedWorld.reputation ∧
    (∀ i, i ≠ 1 →
      (replyVoteRoute nestedWorld 1 13 7 "upvote").1.threads i =
        nestedWorld.threads i) ∧
    ∃ thread thread', nestedWorld.threads 1 = some thread ∧
      (replyVoteRoute nestedWorld 1 13 7 "upvote").1.threads 1 =
        some thread' ∧
      thread'.votes = thread.votes ∧ thread'.author = thread.author ∧
      thread'.id = thread.id ∧
      (viewList thread'.replies).map (maskView 13) =
        (viewList thread.replies).map (maskView 13) :=
  replyVote_frame nestedWorld 1 13 7 "upvote"
    { message := "Vote recorded successfully" }
    (by simp [replyVoteRoute, parseVoteType, nestedWorld, nestedThread,
      findAndVoteReply, applyVote])

/-- C7 (failing on the code): the reply route's response is the constant
success message; it carries no net score and no user vote.  Upvoting and
downvoting the fresh reply 10 produce different net scores (1 versus −1)
and different user votes, yet byte-identical responses. -/
theorem replyVote_response_lacks_score :
    ((replyVoteRoute soloReplyWorld 1 10 7 "upvote").1.threads 1).map
        (fun th => viewList th.replies) =
      some [(10, [⟨7, VoteType.upvote⟩])] ∧
    ((replyVoteRoute soloReplyWorld 1 10 7 "downvote").1.threads 1).map
        (fun th => viewList th.replies) =
      some [(10, [⟨7, VoteType.downvote⟩])] ∧
    voteCount [⟨7, VoteType.upvote⟩] = 1 ∧
    voteCount [⟨7, VoteType.downvote⟩] = -1 ∧
    (replyVoteRoute soloReplyWorld 1 10 7 "upvote").2 =
      (replyVoteRoute soloReplyWorld 1 10 7 "downvote").2 := by
  refine ⟨?_, ?_, by decide, by decide, ?_⟩ <;>
    simp [replyVoteRoute, parseVoteType, soloReplyWorld, soloReplyThread,
      findAndVoteReply, applyVote, viewList, flatten, nodeView]

/-- C7 amended: every successful reply-level vote returns only the fixed
success message — the response includes neither the reply's net score nor
the resulting user vote. -/
theorem replyVote_response_message_only (w : World) (tid rid u : Nat)
    (ts : String) (resp : ReplyVoteResp)
    (h : (replyVoteRoute w tid rid u ts).2 = Except.ok resp) :
    resp = { message := "Vote recorded successfully" } := by
  obtain ⟨t, thread, newReplies, hp, hth, hf⟩ :=
    replyVoteRoute_ok w tid rid u ts resp h
  have heq := replyVoteRoute_eq w tid rid u ts t thread newReplies hp hth hf
  rw [heq] at h
  exact (Except.ok.inj h).symm

/-- Witness for the amended C7: the successful vote on reply 10 answers
with the bare success message. -/
theorem replyVote_response_message_only_witness :
    ({ message := "Vote recorded successfully" } : ReplyVoteResp) =
      { message := "Vote recorded successfully" } :=
  replyVote_response_message_only soloReplyWorld 1 10 7 "upvote"
    { message := "Vote recorded successfully" }
    (by simp [replyVoteRoute, parseVoteType, soloReplyWorld, soloReplyThread,
      findAndVoteReply, applyVote])

/-- C9: not-found failures are atomic and surfaced as-is.  With a valid
vote type, an absent thread id makes both routes fail with the thread
not-found error and return the store unchanged; an existing thread whose
reply tree lacks the requested id makes the reply route fail with the
reply not-found error, again with the store unchanged (neither the thread
aggregate nor any reputation value is persisted). -/
theorem notFound_atomic (w : World) (tid rid u : Nat) (ts : String)
    (t : VoteType) (hts : parseVoteType ts = some t) :
    (w.threads tid = none →
        threadVoteRoute w tid u ts =
          (w, Except.error VoteError.threadNotFound) ∧
        replyVoteRoute w tid rid u ts =
          (w, Except.error VoteError.threadNotFound)) ∧
    (∀ thread, w.threads tid = some thread →
        findAndVoteReply thread.replies rid u t = none →
        replyVoteRoute w tid rid u ts =
          (w, Except.error VoteError.replyNotFound)) := by
  constructor
  · intro hth
    constructor
    · unfold threadVoteRoute
      simp only [hts, hth]
    · unfold replyVoteRoute
      simp only [hts, hth]
  · intro thread hth hf
    unfold replyVoteRoute
    simp only [hts, hth, hf]

/-- Witness for C9 at thread id 2, which `sampleWorld` does not store. -/
theorem notFound_atomic_witness :
    (sampleWorld.threads 2 = none →
        threadVoteRoute sampleWorld 2 7 "upvote" =
          (sampleWorld, Except.error VoteError.threadNotFound) ∧
        replyVoteRoute sampleWorld 2 99 7 "upvote" =
          (sampleWorld, Except.error VoteError.threadNotFound)) ∧
    (∀ thread, sampleWorld.threads 2 = some thread →
        findAndVoteReply thread.replies 99 7 VoteType.upvote = none →
        replyVoteRoute sampleWorld 2 99 7 "upvote" =
          (sampleWorld, Except.error VoteError.replyNotFound)) :=
  notFound_atomic sampleWorld 2 99 7 "upvote" VoteType.upvote rfl

/-- C10: a vote request whose type is neither `upvote` nor `downvote` is
rejected by both endpoints with the 400 validation error before any thread
is consulted: for every store — whether or not the thread exists — the
store comes back unchanged. -/
theorem invalid_type_rejected (w : World) (tid rid u : Nat) (ts : String)
    (h1 : ts ≠ "upvote") (h2 : ts ≠ "downvote") :
    threadVoteRoute w tid u ts = (w, Except.error VoteError.badRequest) ∧
    replyVoteRoute w tid rid u ts = (w, Except.error VoteError.badRequest) := by
  have hp : parseVoteType ts = none := by simp [parseVoteType, h1, h2]
  constructor
  · unfold threadVoteRoute
    simp only [hp]
  · unfold replyVoteRoute
    simp only [hp]

/-- Witness for C10: the type string "sideways" is rejected by both routes. -/
theorem invalid_type_rejected_witness :
    threadVoteRoute sampleWorld 1 7 "sideways" =
      (sampleWorld, Except.error VoteError.badRequest) ∧
    replyVoteRoute sampleWorld 1 10 7 "sideways" =
      (sampleWorld, Except.error VoteError.badRequest) :=
  invalid_type_rejected sampleWorld 1 10 7 "sideways" (by decide) (by decide)

/-- Witness for C4: a type switch by user 1 on a one-entry set, and the
vote of user 1 on reply 13 of the nested forest, both keep the invariant. -/
theorem vote_ops_preserve_invariant_witness :
    atMostOneVotePerUser (applyVote [⟨1, VoteType.upvote⟩] 1
      VoteType.downvote) ∧
    ∀ rs', findAndVoteReply nestedThread.replies 13 1 VoteType.downvote =
      some rs' → forestInv rs' :=
  vote_ops_preserve_invariant [⟨1, VoteType.upvote⟩] 1 13 VoteType.downvote
    nestedThread.replies (by simp [atMostOneVotePerUser])
    (by simp [forestInv, nestedThread, flatten_cons, List.forall_mem_cons,
      atMostOneVotePerUser])

end Forum
